import Mathlib

/-!
Verification of the Harmony automatic MusicBrainz importer
(`src/harmony_driver.py`, class `HarmonyDriver`, plus `src/main.py`).

The Python driver is shallowly embedded below.  Pure helpers
(`filename_from_url`, the cover-art best-candidate fold, the
`re.search(r"Cover art \((\d+)\)", ...)` scan, the label-widget decision
logic, the `wait_find_*` helpers) become Lean functions translated
line-by-line from the source.  The stateful tab juggling of the sub-tasks
(`process_ISRC`, the upload phase of `process_cover_art`) becomes explicit
state passing over a `TabState` record, with the environment (which page
waits succeed, what the page's indicator text is) passed as explicit
parameters.  Strings are modelled as Lean `String` / `List Char`; the
only deliberate divergence is that percent-decoding maps each escaped
byte to the code point of the same value (exact for ASCII escapes, which
are the only ones these properties exercise), whereas CPython decodes the
escaped byte sequence as UTF-8.
-/

namespace Harmony

/-! ## String helpers shared by several embedded functions -/

/-- Value of a hex digit, as used by `urllib.parse.unquote` when it decodes
a `%XX` escape; `none` on a non-hex character. -/
def hexVal (c : Char) : Option Nat :=
  if '0' ≤ c ∧ c ≤ '9' then some (c.toNat - '0'.toNat)
  else if 'a' ≤ c ∧ c ≤ 'f' then some (c.toNat - 'a'.toNat + 10)
  else if 'A' ≤ c ∧ c ≤ 'F' then some (c.toNat - 'A'.toNat + 10)
  else none

/-- `urllib.parse.unquote`: replace each valid `%XX` escape by the character
with code `XX`; invalid escapes are kept verbatim.  (CPython additionally
decodes runs of escaped bytes as UTF-8; for ASCII escapes — the only ones the
spec's filename properties involve — the two agree.) -/
def unquoteList : List Char → List Char
  | '%' :: a :: b :: rest =>
    match hexVal a, hexVal b with
    | some x, some y => Char.ofNat (16 * x + y) :: unquoteList rest
    | _, _ => '%' :: unquoteList (a :: b :: rest)
  | c :: rest => c :: unquoteList rest
  | [] => []

def unquote (s : String) : String := String.mk (unquoteList s.data)

/-- `str.strip()` with no argument: remove leading and trailing whitespace.
(Python strips Unicode whitespace; ASCII whitespace is what these
properties exercise.) -/
def pyStrip (s : String) : String :=
  String.mk (((s.data.dropWhile Char.isWhitespace).reverse.dropWhile
    Char.isWhitespace).reverse)

/-- `str.lower()`, restricted to ASCII case mapping (the JS
`toLowerCase()` on the other side of the comparison agrees on ASCII). -/
def pyLower (s : String) : String :=
  String.mk (s.data.map Char.toLower)

def notSlash (c : Char) : Bool := c ≠ '/'

/-- `os.path.basename` on POSIX: the suffix after the last `'/'`
(`p[p.rfind('/')+1:]`). -/
def basenameList (l : List Char) : List Char :=
  (l.reverse.takeWhile notSlash).reverse

def basename (s : String) : String := String.mk (basenameList s.data)

/-- Index of the last occurrence of `c`, or `none` (`str.rfind`). -/
def lastIdxOf (c : Char) : List Char → Option Nat
  | [] => none
  | x :: xs =>
    match lastIdxOf c xs with
    | some i => some (i + 1)
    | none => if x = c then some 0 else none

/-- `os.path.splitext` (generic implementation): split at the last `'.'`
that comes after the last `'/'`, unless every character between those two
positions is a dot (so `.bashrc`-style names have no extension). -/
def splitext (p : List Char) : List Char × List Char :=
  match lastIdxOf '.' p with
  | none => (p, [])
  | some d =>
    let fi : Nat :=
      match lastIdxOf '/' p with
      | none => 0
      | some s => s + 1
    if ((p.take d).drop fi).any (fun c => c ≠ '.') then
      (p.take d, p.drop d)
    else
      (p, [])

/-! ## `urllib.parse.urlparse(url).path`

Translation of CPython's `urlsplit` restricted to the `path` component:
strip a valid `scheme:`, then a `//netloc` (up to the next `/`, `?` or `#`),
then the fragment (from the first `#`), then the query (from the first `?`).
-/

/-- Characters allowed in a URL scheme after the leading letter. -/
def schemeChar (c : Char) : Bool :=
  c.isAlphanum || c = '+' || c = '-' || c = '.'

/-- Split off `scheme:` when the prefix before the first `':'` is a valid
scheme (leading letter, then scheme characters); otherwise keep the URL. -/
def dropScheme (l : List Char) : List Char :=
  match l.findIdx? (fun c => c = ':') with
  | none => l
  | some i =>
    match l.take i with
    | [] => l
    | c :: cs =>
      if c.isAlpha && cs.all schemeChar then l.drop (i + 1) else l

/-- After a leading `//`, drop the netloc: everything up to the next
`'/'`, `'?'` or `'#'` (CPython `_splitnetloc`). -/
def dropNetloc (l : List Char) : List Char :=
  match l with
  | '/' :: '/' :: rest => rest.dropWhile (fun c => c ≠ '/' && c ≠ '?' && c ≠ '#')
  | _ => l

/-- Keep everything before the first occurrence of `c` (used to strip the
fragment and then the query). -/
def takeUntilChar (c : Char) (l : List Char) : List Char :=
  l.takeWhile (fun x => x ≠ c)

/-- `urlparse(url).path`. -/
def urlparsePath (url : String) : String :=
  String.mk (takeUntilChar '?' (takeUntilChar '#' (dropNetloc (dropScheme url.data))))

/-! ## `HarmonyDriver.filename_from_url` and the extension default

Source (`harmony_driver.py:584-587`):
```
def filename_from_url(self, url: str) -> str:
    path = urlparse(url).path
    name = os.path.basename(unquote(path)) or "image"
    return name
```
and its use (`harmony_driver.py:430-435`): the name is joined under the
covers folder, `os.path.splitext` is applied to the joined path, and
`".jpg"` is appended when the extension is empty.  `basename` leaves no
`'/'` in the name and the folder ends in the separator introduced by
`os.path.join`, so `splitext` of the joined path has the same extension as
`splitext` of the bare name, which is what `cover_out_name` computes. -/

def filename_from_url (url : String) : String :=
  let path := urlparsePath url
  let name := basename (unquote path)
  if name = "" then "image" else name

def cover_out_name (url : String) : String :=
  let name := filename_from_url url
  let ext := (splitext name.data).2
  if ext = [] then name ++ ".jpg" else name

/-! ## Cover-art best-candidate selection

Source (`harmony_driver.py:412-425`):
```
best_overall = None  # tuple (area, width, height, data, src_url)
for cover in cover_arts:
    urls = self.candidate_urls_from_cover(cover)
    for url in urls:
        try:
            w, h, data = self.get_image_size_from_url(url)
        except Exception:
            continue
        area = w * h
        if (best_overall is None) or (area > best_overall[0]):
            best_overall = (area, w, h, data, url)
if best_overall is None:
    raise SystemExit("No valid images found")
```
A `Candidate` is one URL in scan order (the two per-element URLs flattened
across all elements, as the nested loops visit them); its `fetch` field is
the outcome of `get_image_size_from_url`: `none` when the fetch or decode
raised, otherwise the `(width, height, bytes)` triple. -/

structure Candidate where
  url : String
  fetch : Option (Nat × Nat × List Nat)
deriving Repr, DecidableEq

structure Best where
  area : Nat
  width : Nat
  height : Nat
  data : List Nat
  src_url : String
deriving Repr, DecidableEq

/-- One iteration of the inner loop body: skip a failed fetch, otherwise
replace the running best exactly when the new area is strictly greater. -/
def cover_step (best : Option Best) (c : Candidate) : Option Best :=
  match c.fetch with
  | none => best
  | some (w, h, data) =>
    let area := w * h
    match best with
    | none => some ⟨area, w, h, data, c.url⟩
    | some b => if area > b.area then some ⟨area, w, h, data, c.url⟩ else best

def select_loop (best : Option Best) : List Candidate → Option Best
  | [] => best
  | c :: rest => select_loop (cover_step best c) rest

/-- The value of `best_overall` after both loops. -/
def best_overall (cands : List Candidate) : Option Best :=
  select_loop none cands

/-- Area of a candidate's fetched image, when the fetch succeeded. -/
def areaOf (c : Candidate) : Option Nat :=
  c.fetch.map (fun x => x.1 * x.2.1)

/-- `b` is the record the loop builds from candidate `c`. -/
def succeedsWith (c : Candidate) (b : Best) : Prop :=
  c.fetch = some (b.width, b.height, b.data) ∧ b.src_url = c.url ∧
    b.area = b.width * b.height

/-! ## The existing-cover-art count indicator

Source (`harmony_driver.py:462-470`):
```
text = cover_art_link.text
match = re.search(r"Cover art \((\d+)\)", text)
if match:
    count = int(match.group(1))
    if count > 0:
        ...skipping upload...
        return
```
`re.search` finds the leftmost match: the literal `"Cover art ("`, then one
or more digits, then `')'` (with `\d+` greedy, a match at a position exists
iff the maximal digit run is nonempty and followed by `')'`). -/

def digitsToNat (l : List Char) : Nat :=
  l.foldl (fun acc c => acc * 10 + (c.toNat - '0'.toNat)) 0

/-- Try to match `Cover art \((\d+)\)` at the head of `l`, returning the
captured count. -/
def coverCountAt (l : List Char) : Option Nat :=
  match l with
  | 'C' :: 'o' :: 'v' :: 'e' :: 'r' :: ' ' :: 'a' :: 'r' :: 't' :: ' ' :: '(' :: rest =>
    let digits := rest.takeWhile Char.isDigit
    match rest.drop digits.length with
    | ')' :: _ => if digits = [] then none else some (digitsToNat digits)
    | _ => none
  | _ => none

def coverCountScan : List Char → Option Nat
  | [] => none
  | c :: rest =>
    match coverCountAt (c :: rest) with
    | some n => some n
    | none => coverCountScan rest

/-- `re.search(r"Cover art \((\d+)\)", text)` followed by `int(group(1))`:
the count reported by the indicator, or `none` when the pattern is absent. -/
def cover_art_count (text : String) : Option Nat :=
  coverCountScan text.data

/-! ## Tab state and the sub-tasks' tab behaviour

`BrowserSession` of the spec: the set of live window handles, the active
handle, and the registered processing-tab handle.  `driver.close()` removes
the active handle; `driver.switch_to.window(h)` succeeds only when `h` is
still live (otherwise Selenium raises `NoSuchWindowException`). -/

structure TabState where
  openTabs : List String
  active : String
  processing : String
deriving Repr, DecidableEq

inductive DriverError
  | noSuchWindow
deriving Repr, DecidableEq

/-- `open_in_new_tab` (`harmony_driver.py:530-555`), assuming the new tab
opens: the new handle joins the live set and becomes active. -/
def open_in_new_tab (st : TabState) (newHandle : String) : TabState :=
  { st with openTabs := st.openTabs ++ [newHandle], active := newHandle }

/-- `self.driver.close()`: close the active tab. -/
def closeActive (st : TabState) : TabState :=
  { st with openTabs := st.openTabs.erase st.active }

/-- `self.driver.switch_to.window(h)`. -/
def switchTo (st : TabState) (h : String) : Except DriverError TabState :=
  if h ∈ st.openTabs then .ok { st with active := h } else .error .noSuchWindow

/-- Actions of the upload phase of `process_cover_art`
(`harmony_driver.py:472-484`): `file_input.send_keys(path)`, clicking the
`Front` art-type, clicking the `Enter edit` submit button. -/
inductive UploadAction
  | sendFilePath (path : String)
  | selectFrontType
  | clickEnterEdit
deriving Repr, DecidableEq

inductive PyErr
  | systemExit (msg : String)
  | driver (e : DriverError)
deriving Repr, DecidableEq

structure CoverArtResult where
  savedFile : Option String
  uploadActions : List UploadAction
  tabs : TabState
deriving Repr, DecidableEq

/-- `process_cover_art` (`harmony_driver.py:407-493`), on the environment
where every page wait succeeds: `cands` is the flattened candidate list with
fetch outcomes, `newTab` the handle of the transient upload tab, and
`indicator` the text of the existing-cover-art link.  Mirrors the source's
control flow: select the best candidate (fatal `SystemExit` when none),
derive and save the output file, open the upload tab, read the indicator;
on a reported count `> 0` return immediately (the source's early `return` —
no upload action, no `close()`, no switch); otherwise send the path, pick
`Front`, submit, close the tab and switch back to the processing tab. -/
def process_cover_art (st : TabState) (cands : List Candidate)
    (newTab : String) (indicator : String) : Except PyErr CoverArtResult :=
  match best_overall cands with
  | none => .error (.systemExit "No valid images found")
  | some b =>
    let cover_out_path := cover_out_name b.src_url
    let st1 := open_in_new_tab st newTab
    let skip : Bool :=
      match cover_art_count indicator with
      | some count => count > 0
      | none => false
    if skip then
      .ok { savedFile := some cover_out_path, uploadActions := [], tabs := st1 }
    else
      match switchTo (closeActive st1) st1.processing with
      | .ok st2 =>
        .ok { savedFile := some cover_out_path,
              uploadActions := [.sendFilePath cover_out_path, .selectFrontType,
                                .clickEnterEdit],
              tabs := st2 }
      | .error e => .error (.driver e)

/-! ## `process_ISRC` tab behaviour

Source (`harmony_driver.py:325-379`): the whole body — including
`open_in_new_tab` — sits in `try: ... except Exception: pass`, and the
epilogue
```
self.driver.close()
self.driver.switch_to.window(self.processing_tab)
```
runs unconditionally *outside* the `try`.  The environment records where
the body raised, if anywhere: before the transient tab opened (for example
the wait for the `Open with MagicISRC` link timed out and the operator
declined the retry), after it opened, or not at all. -/

inductive IsrcOutcome
  | failBeforeTabOpen
  | failAfterTabOpen
  | success
deriving Repr, DecidableEq

def process_ISRC (st : TabState) (newTab : String) (out : IsrcOutcome) :
    Except PyErr TabState :=
  let st1 :=
    match out with
    | .failBeforeTabOpen => st
    | .failAfterTabOpen => open_in_new_tab st newTab
    | .success => open_in_new_tab st newTab
  let st2 := closeActive st1
  match switchTo st2 st1.processing with
  | .ok st3 => .ok st3
  | .error e => .error (.driver e)

/-! ## The orchestrator's stage sequence

Source (`harmony_driver.py:131-140`), the calls made after the import
button opened the processing tab:
```
self.process_musicbrainz_submission()
self.process_ISRC()
if self.use_test_mb:
    self.modify_musicbrainz_links()
    # "Skipping ISRC submission in test MB mode"
else:
    self.process_ISRC()
self.process_external_links_to_tracks()
self.process_cover_art()
```
-/

inductive Stage
  | MbSubmit
  | IsrcSubmit
  | ModifyLinks
  | ExternalLinks
  | CoverArt
deriving Repr, DecidableEq

def import_stages (use_test_mb : Bool) : List Stage :=
  [.MbSubmit, .IsrcSubmit] ++
    (if use_test_mb then [.ModifyLinks] else [.IsrcSubmit]) ++
    [.ExternalLinks, .CoverArt]

/-! ## Label-widget handling in the single-error label-missing case

Source (`harmony_driver.py:277-297`), per widget of the release-event
fieldset:
```
pre_entered_text = search_input.get_attribute("value")
if pre_entered_text is not None:
    pre_entered_text = pre_entered_text.strip().lower()
    if text and text == pre_entered_text:
        first_result.click()
    else:
        if self.manual_label_selection:
            input("!!! Please check the label manually ...")
        else:
            remove_label_list[i].click()
else:
    logging.info("Pre-entered label text is empty, cannot match")
```
`text` is the first search result's display text, already trimmed and
lower-cased by the injected script; `pre` is the raw `value` attribute
(`none` when the attribute is absent). -/

inductive LabelAction
  | clickResult
  | removeLabel
  | escalateHuman
  | noAction
deriving Repr, DecidableEq

def handle_label_widget (text : String) (pre : Option String)
    (manual_label_selection : Bool) : LabelAction :=
  match pre with
  | none => .noAction
  | some p =>
    let pre_entered_text := pyLower (pyStrip p)
    if text ≠ "" ∧ text = pre_entered_text then .clickResult
    else if manual_label_selection then .escalateHuman
    else .removeLabel

/-! ## The element wait helpers

Source (`harmony_driver.py:497-528`).  `wait_find_element` loops: one
bounded `WebDriverWait` per iteration (`attempt n` is the outcome of the
`n`-th iteration's wait, `none` meaning it timed out — each iteration uses
the same `timeout` argument), and on a timeout the operator is prompted;
the reply is stripped and lower-cased, `"r"` retries, anything else
re-raises the `TimeoutException`.  `wait_find_elements` and
`wait_find_clickable` are a single `WebDriverWait` with no prompt at all.
The operator's replies are a finite list; `noDecision` marks the
(real-code-blocks-forever) case of the list running out. -/

inductive WaitError
  | timeout
  | noDecision
deriving Repr, DecidableEq

def normalize_decision (s : String) : String := pyLower (pyStrip s)

def wait_find_element_go {α : Type} (attempt : Nat → Option α) :
    Nat → List String → Except WaitError α
  | n, [] =>
    match attempt n with
    | some e => .ok e
    | none => .error .noDecision
  | n, d :: rest =>
    match attempt n with
    | some e => .ok e
    | none =>
      if normalize_decision d = "r" then wait_find_element_go attempt (n + 1) rest
      else .error .timeout

def wait_find_element {α : Type} (attempt : Nat → Option α)
    (decisions : List String) : Except WaitError α :=
  wait_find_element_go attempt 0 decisions

def wait_find_elements {α : Type} (attempt : Nat → Option (List α)) :
    Except WaitError (List α) :=
  match attempt 0 with
  | some es => .ok es
  | none => .error .timeout

def wait_find_clickable {α : Type} (attempt : Nat → Option α) :
    Except WaitError α :=
  match attempt 0 with
  | some e => .ok e
  | none => .error .timeout

/-! ## Properties of the best-candidate fold -/

theorem cover_step_some_left (b0 : Best) (c : Candidate) :
    ∃ b1, cover_step (some b0) c = some b1 ∧ b0.area ≤ b1.area ∧
      ∀ a, areaOf c = some a → a ≤ b1.area := by
  cases hc : c.fetch with
  | none =>
    refine ⟨b0, by simp [cover_step, hc], le_refl _, ?_⟩
    intro a ha
    simp [areaOf, hc] at ha
  | some v =>
    obtain ⟨w, ht, d⟩ := v
    by_cases hgt : b0.area < w * ht
    · refine ⟨⟨w * ht, w, ht, d, c.url⟩, ?_, le_of_lt hgt, ?_⟩
      · simp [cover_step, hc, hgt]
      · intro a ha
        simp [areaOf, hc] at ha
        show a ≤ w * ht
        omega
    · refine ⟨b0, ?_, le_refl _, ?_⟩
      · simp [cover_step, hc, hgt]
      · intro a ha
        simp [areaOf, hc] at ha
        omega

theorem cover_step_some_succ (best : Option Best) (c : Candidate) (a : Nat)
    (ha : areaOf c = some a) :
    ∃ b1, cover_step best c = some b1 ∧ a ≤ b1.area := by
  cases hc : c.fetch with
  | none => simp [areaOf, hc] at ha
  | some v =>
    obtain ⟨w, ht, d⟩ := v
    have haw : a = w * ht := by
      simp [areaOf, hc] at ha
      omega
    cases best with
    | none =>
      exact ⟨⟨w * ht, w, ht, d, c.url⟩, by simp [cover_step, hc], by simp [haw]⟩
    | some b0 =>
      by_cases hgt : b0.area < w * ht
      · exact ⟨⟨w * ht, w, ht, d, c.url⟩, by simp [cover_step, hc, hgt], by simp [haw]⟩
      · refine ⟨b0, by simp [cover_step, hc, hgt], ?_⟩
        subst haw
        exact Nat.le_of_not_lt hgt

theorem cover_step_cases (best : Option Best) (c : Candidate) (b1 : Best)
    (h : cover_step best c = some b1) :
    (best = some b1 ∧ ∀ a, areaOf c = some a → a ≤ b1.area) ∨
    (succeedsWith c b1 ∧ ∀ b0, best = some b0 → b0.area < b1.area) := by
  cases hc : c.fetch with
  | none =>
    left
    refine ⟨by simpa [cover_step, hc] using h, ?_⟩
    intro a ha
    simp [areaOf, hc] at ha
  | some v =>
    obtain ⟨w, ht, d⟩ := v
    cases best with
    | none =>
      right
      have hb : (⟨w * ht, w, ht, d, c.url⟩ : Best) = b1 := by
        simpa [cover_step, hc] using h
      subst hb
      exact ⟨⟨hc, rfl, rfl⟩, by intro b0 hb0; exact absurd hb0 (by simp)⟩
    | some b0 =>
      by_cases hgt : b0.area < w * ht
      · right
        have hb : (⟨w * ht, w, ht, d, c.url⟩ : Best) = b1 := by
          simpa [cover_step, hc, hgt] using h
        subst hb
        refine ⟨⟨hc, rfl, rfl⟩, ?_⟩
        intro b0' hb0'
        cases hb0'
        exact hgt
      · left
        have hb : b0 = b1 := by
          simpa [cover_step, hc, hgt] using h
        subst hb
        refine ⟨rfl, ?_⟩
        intro a ha
        simp [areaOf, hc] at ha
        omega

theorem select_loop_spec (cands : List Candidate) :
    ∀ (best : Option Best) (b : Best), select_loop best cands = some b →
      (best = some b ∧ ∀ c ∈ cands, ∀ a, areaOf c = some a → a ≤ b.area) ∨
      (∃ pre cw post, cands = pre ++ cw :: post ∧ succeedsWith cw b ∧
        (∀ b0, best = some b0 → b0.area < b.area) ∧
        (∀ c ∈ pre, ∀ a, areaOf c = some a → a < b.area) ∧
        (∀ c ∈ post, ∀ a, areaOf c = some a → a ≤ b.area)) := by
  induction cands with
  | nil =>
    intro best b h
    left
    refine ⟨h, ?_⟩
    intro c hc
    simp at hc
  | cons c rest ih =>
    intro best b h
    have h' : select_loop (cover_step best c) rest = some b := h
    rcases ih (cover_step best c) b h' with ⟨hacc, hub⟩ |
      ⟨pre, cw, post, hsplit, hwin, hacc, hpre, hpost⟩
    · rcases cover_step_cases best c b hacc with ⟨hbest, hcb⟩ | ⟨hwin, hlt⟩
      · left
        refine ⟨hbest, ?_⟩
        intro c' hc' a ha
        rcases List.mem_cons.mp hc' with rfl | hmem
        · exact hcb a ha
        · exact hub c' hmem a ha
      · right
        refine ⟨[], c, rest, rfl, hwin, hlt, ?_, hub⟩
        intro c' hc'
        simp at hc'
    · right
      refine ⟨c :: pre, cw, post, by rw [hsplit]; rfl, hwin, ?_, ?_, hpost⟩
      · intro b0 hb0
        obtain ⟨b1, hb1, hle, _⟩ := cover_step_some_left b0 c
        exact lt_of_le_of_lt hle (hacc b1 (hb0 ▸ hb1))
      · intro c' hc' a ha
        rcases List.mem_cons.mp hc' with rfl | hmem
        · obtain ⟨b1, hb1, hle⟩ := cover_step_some_succ best c' a ha
          exact lt_of_le_of_lt hle (hacc b1 hb1)
        · exact hpre c' hmem a ha

theorem select_loop_all_fail (cands : List Candidate)
    (hall : ∀ c ∈ cands, c.fetch = none) :
    ∀ best, select_loop best cands = best := by
  induction cands with
  | nil => intro best; rfl
  | cons c rest ih =>
    intro best
    have hc : c.fetch = none := hall c (by simp)
    have hstep : cover_step best c = best := by simp [cover_step, hc]
    have hrest : ∀ c' ∈ rest, c'.fetch = none := by
      intro c' hc'
      exact hall c' (List.mem_cons_of_mem _ hc')
    calc select_loop best (c :: rest) = select_loop (cover_step best c) rest := rfl
      _ = select_loop best rest := by rw [hstep]
      _ = best := ih hrest best

/-! ## Claim theorems -/

/-- C1: scanning the cover-art candidate URLs in order, where each URL either
fails to fetch/decode (`fetch = none`) or yields a `(width, height, bytes)`
triple, the selector returns the successful candidate with maximal
`width * height`; on equal areas the first one encountered is kept.  The
returned record is built from a candidate `cw`, every successful candidate
before `cw` has strictly smaller area (so `cw` is the first to attain the
maximum), and every successful candidate after it has area at most `cw`'s. -/
theorem C1_best_candidate_max_area_first_tie (cands : List Candidate) (b : Best)
    (h : best_overall cands = some b) :
    ∃ pre cw post, cands = pre ++ cw :: post ∧ succeedsWith cw b ∧
      (∀ c ∈ pre, ∀ a, areaOf c = some a → a < b.area) ∧
      (∀ c ∈ post, ∀ a, areaOf c = some a → a ≤ b.area) := by
  rcases select_loop_spec cands none b h with ⟨hacc, _⟩ |
    ⟨pre, cw, post, hs, hw, _, hp, hq⟩
  · exact absurd hacc (by simp)
  · exact ⟨pre, cw, post, hs, hw, hp, hq⟩

/-- Witness for C1: of a 300 by 300 image and two 640 by 640 images, the first
640 by 640 candidate (URL "b") wins. -/
theorem C1_witness :
    ∃ pre cw post,
      ([⟨"a", some (300, 300, [1])⟩, ⟨"b", some (640, 640, [2])⟩,
        ⟨"c", some (640, 640, [3])⟩] : List Candidate) = pre ++ cw :: post ∧
      succeedsWith cw ⟨409600, 640, 640, [2], "b"⟩ ∧
      (∀ c ∈ pre, ∀ a, areaOf c = some a → a < 409600) ∧
      (∀ c ∈ post, ∀ a, areaOf c = some a → a ≤ 409600) :=
  C1_best_candidate_max_area_first_tie _ _ (by decide)

/-- C7: when no cover-art candidate URL fetches and decodes successfully
(every candidate's `fetch` outcome is `none`), `process_cover_art` fails the
album fatally with `SystemExit("No valid images found")`
(`harmony_driver.py:424-425`). -/
theorem C7_no_valid_images_fatal (st : TabState) (cands : List Candidate)
    (newTab indicator : String) (hall : ∀ c ∈ cands, c.fetch = none) :
    process_cover_art st cands newTab indicator =
      .error (.systemExit "No valid images found") := by
  have hb : best_overall cands = none := select_loop_all_fail cands hall none
  simp [process_cover_art, hb]

/-- Witness for C7: a sole candidate whose fetch fails. -/
theorem C7_witness :
    process_cover_art ⟨["proc"], "proc", "proc"⟩ [⟨"https://x/a.png", none⟩]
        "tab" "Cover art (0)" = .error (.systemExit "No valid images found") :=
  C7_no_valid_images_fatal _ _ _ _ (by decide)

/-- C5: whenever a winning candidate exists (however many candidates
succeeded) and the upload page's existing-cover-art indicator reports a count
greater than zero, `process_cover_art` issues no upload action at all — no
file path is sent, no art type selected, no submit clicked
(`harmony_driver.py:456-470`). -/
theorem C5_upload_idempotence (st : TabState) (cands : List Candidate)
    (newTab indicator : String) (b : Best) (n : Nat)
    (hb : best_overall cands = some b)
    (hcount : cover_art_count indicator = some n) (hn : 0 < n) :
    ∃ r, process_cover_art st cands newTab indicator = .ok r ∧
      r.uploadActions = [] := by
  refine ⟨⟨some (cover_out_name b.src_url), [], open_in_new_tab st newTab⟩, ?_, rfl⟩
  simp [process_cover_art, hb, hcount, hn]

/-- Witness for C5: one fetched candidate, indicator "Cover art (1)". -/
theorem C5_witness :
    ∃ r, process_cover_art ⟨["proc"], "proc", "proc"⟩
        [⟨"https://x/a.png", some (2, 2, [9])⟩] "tab" "Cover art (1)" = .ok r ∧
      r.uploadActions = [] :=
  C5_upload_idempotence _ _ _ _ ⟨4, 2, 2, [9], "https://x/a.png"⟩ 1 (by decide)
    (by decide) (by decide)

/-- C2 fails on the code: on the cover-art sub-task's skip-upload early-exit
path (existing-cover count greater than zero, `harmony_driver.py:470`) the
function returns without `driver.close()` and without switching back, so the
transient upload tab is still open and still the active context — the active
handle does not equal the processing-tab handle, violating the invariant the
spec states for every sub-task exit path.  (The ISRC sub-task's success path,
by contrast, does restore the processing tab; see `C8` for its failure
paths.) -/
theorem C2_cover_art_skip_breaks_tab_invariant :
    ∃ r, process_cover_art ⟨["proc"], "proc", "proc"⟩
        [⟨"https://x/a.png", some (2, 2, [9])⟩] "cover" "Cover art (1)" = .ok r ∧
      r.tabs.active = "cover" ∧ r.tabs.processing = "proc" ∧
      r.tabs.active ≠ r.tabs.processing ∧ "cover" ∈ r.tabs.openTabs :=
  ⟨⟨some "a.png", [], ⟨["proc", "cover"], "cover", "proc"⟩⟩, rfl, rfl, rfl,
    by decide, by decide⟩

/-- C3 fails on the code: in `process_harmony` (`harmony_driver.py:131-139`)
the ISRC sub-task is invoked unconditionally once and then again on the
non-test branch of the `use_test_mb` conditional, so it runs twice per album
when `use_test_mb = false` and once (despite the log line claiming it is
skipped) when `use_test_mb = true` — never "exactly once, skipped in test
mode" as the claim states. -/
theorem C3_isrc_invoked_twice_not_skipped :
    (import_stages false).count .IsrcSubmit = 2 ∧
    (import_stages true).count .IsrcSubmit = 1 ∧
    import_stages false =
      [.MbSubmit, .IsrcSubmit, .IsrcSubmit, .ExternalLinks, .CoverArt] ∧
    import_stages true =
      [.MbSubmit, .IsrcSubmit, .ModifyLinks, .ExternalLinks, .CoverArt] := by
  refine ⟨?_, ?_, rfl, rfl⟩ <;> decide

/-- C8 fails on the code: the `try/except` of `process_ISRC` swallows the
body's failure, but the epilogue `driver.close();
switch_to.window(processing_tab)` sits outside the `try`
(`harmony_driver.py:374-379`).  When the failure happens before the transient
tab opened (for example the wait for the "Open with MagicISRC" link timing
out with the operator declining the retry), `close()` closes the processing
tab itself and the switch back raises `NoSuchWindowException`, which
propagates to the orchestrator — the sub-task does not return normally.  A
failure after the tab opened is swallowed as the claim describes. -/
theorem C8_isrc_failure_before_tab_open_propagates :
    process_ISRC ⟨["proc"], "proc", "proc"⟩ "isrc" .failBeforeTabOpen =
      .error (.driver .noSuchWindow) ∧
    process_ISRC ⟨["proc"], "proc", "proc"⟩ "isrc" .failAfterTabOpen =
      .ok ⟨["proc"], "proc", "proc"⟩ ∧
    process_ISRC ⟨["proc"], "proc", "proc"⟩ "isrc" .success =
      .ok ⟨["proc"], "proc", "proc"⟩ :=
  ⟨rfl, rfl, rfl⟩

/-- C10: a label-search widget whose search box has no `value` attribute
(`get_attribute("value")` returned `None`) is left untouched: the handler
neither clicks the first result, nor clicks the remove control, nor
escalates (`harmony_driver.py:278, 296-297`). -/
theorem C10_absent_value_leaves_widget_untouched (text : String)
    (manual_label_selection : Bool) :
    handle_label_widget text none manual_label_selection = .noAction := rfl

/-- C6 fails on the code as stated: when the first result's normalized text
and the normalized pre-filled text are equal but empty (result text "",
pre-filled value " "), the guard `if text and text == pre_entered_text`
(`harmony_driver.py:281`) is falsy, so instead of clicking the equal result
the handler falls into the mismatch branch and (with
`manual_label_selection = false`) removes the label. -/
theorem C6_counterexample :
    ("" : String) = pyLower (pyStrip " ") ∧
    handle_label_widget "" (some " ") false = .removeLabel ∧
    LabelAction.removeLabel ≠ LabelAction.clickResult := by
  refine ⟨?_, ?_, ?_⟩ <;> decide

/-- C6 (amended): the handler clicks the first result only when its
normalized text is non-empty and equal to the normalized pre-filled text;
when the result text is empty or the two differ, it escalates if
`manual_label_selection` is true and otherwise removes the label entry, with
no escalation (`harmony_driver.py:277-294`). -/
theorem C6_label_widget_decision (text p : String) (manual_label_selection : Bool) :
    (text ≠ "" → text = pyLower (pyStrip p) →
      handle_label_widget text (some p) manual_label_selection = .clickResult) ∧
    (text = "" ∨ text ≠ pyLower (pyStrip p) →
      handle_label_widget text (some p) manual_label_selection =
        if manual_label_selection then .escalateHuman else .removeLabel) := by
  constructor
  · intro hne heq
    subst heq
    simp [handle_label_widget, hne]
  · intro hcase
    rcases hcase with h0 | hne
    · subst h0
      simp [handle_label_widget]
    · simp [handle_label_widget, hne]

/-- Witness for the amended C6: a non-empty exact match is clicked; a
mismatch escalates under manual mode and is removed otherwise. -/
theorem C6_witness :
    handle_label_widget "label" (some " Label ") false = .clickResult ∧
    handle_label_widget "x" (some "y") true = .escalateHuman ∧
    handle_label_widget "x" (some "y") false = .removeLabel :=
  ⟨(C6_label_widget_decision "label" " Label " false).1 (by decide) (by decide),
   (C6_label_widget_decision "x" "y" true).2 (Or.inr (by decide)),
   (C6_label_widget_decision "x" "y" false).2 (Or.inr (by decide))⟩

/-- C4 fails on the code as stated: only `wait_find_element` presents the
retry-or-abort prompt on timeout (`harmony_driver.py:497-514`);
`wait_find_elements` and `wait_find_clickable` are a bare `WebDriverWait`
(`harmony_driver.py:516-528`).  Concretely: with a page where the wait times
out once and would succeed on a retry, and an operator answering "r", the
single-element wait retries and succeeds, while the all-matches and
clickability waits fail immediately with a Timeout error — no escalation, no
retry. -/
theorem C4_counterexample :
    wait_find_element (fun n => if n = 0 then none else some 42) ["r"] = .ok 42 ∧
    wait_find_elements (fun n => if n = 0 then none else some [42]) =
      .error .timeout ∧
    wait_find_clickable (fun n => if n = 0 then none else some 42) =
      .error .timeout :=
  ⟨rfl, rfl, rfl⟩

/-- C4 (amended): on timeout, the single-element wait presents the
retry-or-abort choice — a reply normalizing to "r" restarts the wait (same
timeout, modelled as the next attempt index), any other reply re-raises the
Timeout error, and a successful wait returns the element; the all-matches
and clickability waits present no choice and fail directly with a Timeout
error on their single attempt. -/
theorem C4_wait_engine_behaviour {α : Type} (attempt : Nat → Option α)
    (attemptL : Nat → Option (List α)) (attemptC : Nat → Option α)
    (n : Nat) (d : String) (ds : List String) :
    (attempt n = none → normalize_decision d = "r" →
      wait_find_element_go attempt n (d :: ds) =
        wait_find_element_go attempt (n + 1) ds) ∧
    (attempt n = none → normalize_decision d ≠ "r" →
      wait_find_element_go attempt n (d :: ds) = .error .timeout) ∧
    (∀ e, attempt n = some e →
      wait_find_element_go attempt n (d :: ds) = .ok e) ∧
    (attemptL 0 = none → wait_find_elements attemptL = .error .timeout) ∧
    (attemptC 0 = none → wait_find_clickable attemptC = .error .timeout) := by
  refine ⟨?_, ?_, ?_, ?_, ?_⟩
  · intro hn hr
    simp [wait_find_element_go, hn, hr]
  · intro hn hr
    simp [wait_find_element_go, hn, hr]
  · intro e he
    simp [wait_find_element_go, he]
  · intro hL
    simp [wait_find_elements, hL]
  · intro hC
    simp [wait_find_clickable, hC]

/-- Witness for the amended C4, at always-timing-out pages: "r" retries,
"c" aborts with Timeout, elements- and clickable-waits time out directly. -/
theorem C4_witness :
    (wait_find_element_go (fun _ => (none : Option Nat)) 0 ["r", "c"] =
      wait_find_element_go (fun _ => (none : Option Nat)) 1 ["c"]) ∧
    (wait_find_element_go (fun _ => (none : Option Nat)) 0 ["c"] =
      .error .timeout) ∧
    (wait_find_elements (fun _ => (none : Option (List Nat))) = .error .timeout) ∧
    (wait_find_clickable (fun _ => (none : Option Nat)) = .error .timeout) :=
  ⟨(C4_wait_engine_behaviour (fun _ => (none : Option Nat)) (fun _ => none)
      (fun _ => none) 0 "r" ["c"]).1 rfl (by decide),
   (C4_wait_engine_behaviour (fun _ => (none : Option Nat)) (fun _ => none)
      (fun _ => none) 0 "c" []).2.1 rfl (by decide),
   (C4_wait_engine_behaviour (fun _ => (none : Option Nat))
      (fun _ => (none : Option (List Nat))) (fun _ => none) 0 "c" []).2.2.2.1 rfl,
   (C4_wait_engine_behaviour (fun _ => (none : Option Nat)) (fun _ => none)
      (fun _ => (none : Option Nat)) 0 "c" []).2.2.2.2 rfl⟩

/-! ## C9: the spec-side filename derivation

§4.2 step 6 of the spec words the derivation as "decode percent-escapes,
take the final path segment, default to a generic name if empty; if the
derived name has no extension, append `.jpg`".  Here "final path segment"
is independently formalized as the last `'/'`-separated component of the
decoded path, and proved equal to the code's `basename` composition. -/

def splitOnChar (c : Char) : List Char → List (List Char)
  | [] => [[]]
  | x :: xs =>
    if x = c then [] :: splitOnChar c xs
    else
      match splitOnChar c xs with
      | [] => [[x]]
      | h :: t => (x :: h) :: t

/-- The derivation as the spec words it, with "final path segment" read as
the last `'/'`-separated component and "has no extension" as
`os.path.splitext` reporting an empty extension. -/
def filename_spec (url : String) : String :=
  let decoded := unquote (urlparsePath url)
  let seg := String.mk ((splitOnChar '/' decoded.data).getLastD [])
  let name := if seg = "" then "image" else seg
  if (splitext name.data).2 = [] then name ++ ".jpg" else name

theorem splitOnChar_ne_nil (c : Char) (l : List Char) : splitOnChar c l ≠ [] := by
  cases l with
  | nil => simp [splitOnChar]
  | cons x xs =>
    by_cases hx : x = c
    · simp [splitOnChar, hx]
    · cases hr : splitOnChar c xs with
      | nil => simp [splitOnChar, hx, hr]
      | cons h t => simp [splitOnChar, hx, hr]

theorem length_splitOnChar (c : Char) (l : List Char) :
    (splitOnChar c l).length = l.count c + 1 := by
  induction l with
  | nil => simp [splitOnChar]
  | cons x xs ih =>
    by_cases hx : x = c
    · subst hx
      simp [splitOnChar, List.count_cons, ih]
    · cases hr : splitOnChar c xs with
      | nil => exact absurd hr (splitOnChar_ne_nil c xs)
      | cons h t =>
        have hs : splitOnChar c (x :: xs) = (x :: h) :: t := by
          simp [splitOnChar, hx, hr]
        have hx' : ¬ c = x := fun h0 => hx h0.symm
        rw [hs]
        rw [hr] at ih
        simp [List.count_cons, hx'] at ih ⊢
        omega

theorem takeWhile_append_stop {α : Type} {p : α → Bool} {a : α} :
    ∀ {l₁ : List α}, a ∈ l₁ → p a = false → ∀ l₂ : List α,
      (l₁ ++ l₂).takeWhile p = l₁.takeWhile p := by
  intro l₁
  induction l₁ with
  | nil => intro h; simp at h
  | cons x xs ih =>
    intro hmem hpa l₂
    cases hpx : p x with
    | false => simp [List.takeWhile_cons, hpx]
    | true =>
      have hax : a ∈ xs := by
        rcases List.mem_cons.mp hmem with heq | h
        · subst heq
          rw [hpa] at hpx
          exact Bool.noConfusion hpx
        · exact h
      simp [List.takeWhile_cons, hpx, ih hax hpa l₂]

theorem notSlash_all {xs : List Char} (hm : '/' ∉ xs) :
    ∀ y ∈ xs.reverse, notSlash y := by
  intro y hy
  rw [List.mem_reverse] at hy
  simp only [notSlash, decide_eq_true_eq]
  intro he
  exact hm (he ▸ hy)

theorem basenameList_all {l : List Char} (h : '/' ∉ l) : basenameList l = l := by
  unfold basenameList
  have h2 : l.reverse.takeWhile notSlash = l.reverse := by
    have h3 := @List.takeWhile_append_of_pos _ notSlash l.reverse [] (notSlash_all h)
    simpa using h3
  rw [h2, List.reverse_reverse]

theorem basenameList_cons_of_mem (x : Char) {xs : List Char} (hm : '/' ∈ xs) :
    basenameList (x :: xs) = basenameList xs := by
  unfold basenameList
  rw [List.reverse_cons,
    takeWhile_append_stop (List.mem_reverse.mpr hm)
      (show notSlash '/' = false by decide) [x]]

theorem basenameList_sep_nomem {xs : List Char} (hm : '/' ∉ xs) :
    basenameList ('/' :: xs) = basenameList xs := by
  have h1 : basenameList ('/' :: xs) = xs := by
    unfold basenameList
    rw [List.reverse_cons,
      @List.takeWhile_append_of_pos _ notSlash xs.reverse ['/'] (notSlash_all hm)]
    simp [List.takeWhile_cons, show notSlash '/' = false by decide]
  rw [h1, basenameList_all hm]

theorem basenameList_cons_nomem {x : Char} {xs : List Char} (hx : x ≠ '/')
    (hm : '/' ∉ xs) : basenameList (x :: xs) = x :: xs := by
  unfold basenameList
  rw [List.reverse_cons,
    @List.takeWhile_append_of_pos _ notSlash xs.reverse [x] (notSlash_all hm)]
  simp [List.takeWhile_cons, show notSlash x = true by simp [notSlash, hx]]

theorem getLastD_splitOnChar (l : List Char) :
    (splitOnChar '/' l).getLastD [] = basenameList l := by
  induction l with
  | nil => rfl
  | cons x xs ih =>
    by_cases hx : x = '/'
    · subst hx
      rw [show splitOnChar '/' ('/' :: xs) = [] :: splitOnChar '/' xs from by
        simp [splitOnChar]]
      rw [List.getLastD_cons, ih]
      by_cases hm : '/' ∈ xs
      · rw [basenameList_cons_of_mem '/' hm]
      · rw [basenameList_sep_nomem hm]
    · cases hr : splitOnChar '/' xs with
      | nil => exact absurd hr (splitOnChar_ne_nil '/' xs)
      | cons h t =>
        have hs : splitOnChar '/' (x :: xs) = (x :: h) :: t := by
          simp [splitOnChar, hx, hr]
        rw [hs, List.getLastD_cons]
        rw [hr, List.getLastD_cons] at ih
        by_cases hm : '/' ∈ xs
        · have hl := length_splitOnChar '/' xs
          rw [hr] at hl
          have ht : t ≠ [] := by
            intro h0
            subst h0
            simp at hl
            have hc0 : xs.count '/' = 0 := by omega
            exact List.count_eq_zero.mp hc0 hm
          have hind : t.getLastD (x :: h) = t.getLastD h := by
            cases t with
            | nil => exact absurd rfl ht
            | cons y ys => rw [List.getLastD_cons, List.getLastD_cons]
          rw [hind, ih, basenameList_cons_of_mem x hm]
        · have hl := length_splitOnChar '/' xs
          rw [hr] at hl
          have hc0 : xs.count '/' = 0 := List.count_eq_zero.mpr hm
          rw [hc0] at hl
          have ht : t = [] := by
            cases t with
            | nil => rfl
            | cons y ys => simp at hl
          subst ht
          have hxs : h = xs := by
            simpa [basenameList_all hm] using ih
          rw [basenameList_cons_nomem hx hm]
          simp [hxs]

theorem filename_eq_spec (url : String) : cover_out_name url = filename_spec url := by
  simp only [cover_out_name, filename_spec, filename_from_url, basename,
    getLastD_splitOnChar]

/-- C9: the local filename derived for a winning cover-art URL is the
percent-decoded final path segment of the URL's path with the query string
ignored (the last `'/'`-separated component of the decoded path, per the
proven refinement `cover_out_name = filename_spec`), defaults to the generic
name "image" when that segment is empty, and gets ".jpg" appended when it
has no extension; in particular a URL ending in "/covers/cover.png?x=1"
yields "cover.png", one ending in "/covers/cover" yields "cover.jpg", and
one ending in "/" yields "image.jpg" (`harmony_driver.py:584-587, 430-435`). -/
theorem C9_filename_derivation :
    (∀ url, cover_out_name url = filename_spec url) ∧
    cover_out_name "https://example.com/covers/cover.png?x=1" = "cover.png" ∧
    cover_out_name "https://example.com/covers/cover" = "cover.jpg" ∧
    cover_out_name "https://example.com/" = "image.jpg" :=
  ⟨filename_eq_spec, rfl, rfl, rfl⟩

end Harmony

